import Mathlib

/-!
Shallow embedding of the OSRP streams backend (`src/server.js`) and proofs of
the specification claims about its stream-discovery pipeline.

The pipeline under study: OAuth token acquisition (`getTwitchToken`), the
paginated catalog scan with match policy and normalization
(`getTwitchStreams`), deduplication by canonical URL, descending stable sort
by viewer count, and the `/streams` aggregation endpoint.

Upstream I/O (`fetch`) is modelled by explicit oracles: a `TokenResp` for the
identity endpoint and a function `Nat → PageResp` giving the response to the
n-th listing request of a scan.  A rejected promise (network failure or a
throwing `.json()`) is the `reject` constructor; in the JavaScript source such
a rejection propagates out of the `async` function, which the embedding
renders as `Except.error`.
-/

set_option maxRecDepth 4000

namespace OSRP

/-- A raw stream record as returned by the listing endpoint
(`helix/streams`).  Every field may be absent (`undefined` in JavaScript),
hence `Option`.  `game_id` is delivered by the upstream but is never read by
the code in `src/server.js`. -/
structure StreamRecord where
  user_login    : Option String := none
  user_name     : Option String := none
  title         : Option String := none
  thumbnail_url : Option String := none
  viewer_count  : Option Nat    := none
  language      : Option String := none
  game_id       : Option String := none
deriving Repr, DecidableEq

/-- A normalized matched stream, as pushed onto `results` in
`getTwitchStreams` (src/server.js lines 104-112). -/
structure MatchedStream where
  platform  : String
  name      : Option String
  title     : Option String
  thumbnail : String
  url       : String
  viewers   : Option Nat
  language  : Option String
deriving Repr, DecidableEq

/-! ### JavaScript string primitives

The JavaScript string operations the pipeline uses — `toLowerCase`, `trim`,
`split(",")` — are given directly as structurally recursive functions on the
character list of the string (the core library's counterparts use
well-founded recursion over byte positions, which obstructs evaluation
inside proofs).  `\s`-style whitespace is modelled on its ASCII fragment. -/

def isSpaceChar (c : Char) : Bool :=
  c = ' ' || c = '\t' || c = '\n' || c = '\r' || c = '\x0b' || c = '\x0c'

/-- `String.prototype.toLowerCase` (ASCII letters, which is all the inputs
here contain). -/
def jsToLower (s : String) : String := ⟨s.data.map Char.toLower⟩

/-- `String.prototype.trim`. -/
def jsTrim (s : String) : String :=
  ⟨((s.data.dropWhile isSpaceChar).reverse.dropWhile isSpaceChar).reverse⟩

/-- `String.prototype.split(",")`. -/
def splitCommaAux : List Char → List Char → List String
  | [], cur => [⟨cur.reverse⟩]
  | c :: cs, cur =>
    if c = ',' then ⟨cur.reverse⟩ :: splitCommaAux cs []
    else splitCommaAux cs (c :: cur)

def jsSplitComma (s : String) : List String := splitCommaAux s.data []

/-! ### Environment and configuration (src/server.js lines 19-29) -/

/-- `process.env` lookup: first binding of the key wins. -/
def envGet (env : List (String × String)) (k : String) : Option String :=
  (env.find? (fun p => p.1 == k)).map (fun p => p.2)

/-- JavaScript truthiness of an optional string: `undefined` and `""` are
falsy (`!TWITCH_CLIENT_ID`, `!token`). -/
def truthyS : Option String → Bool
  | none => false
  | some s => s ≠ ""

/-- `(process.env.WHITELIST_LOGINS || "").split(",").map(s =>
s.trim().toLowerCase()).filter(Boolean)` (src/server.js lines 26-29). -/
def parseWhitelist (raw : Option String) : List String :=
  ((jsSplitComma (raw.getD "")).map (fun s => jsToLower (jsTrim s))).filter
    (fun s => s ≠ "")

/-- `parseInt(x || "100", 10)` as it feeds the `page < TWITCH_MAX_PAGES`
loop bound: leading whitespace is skipped, an optional sign is read, and the
longest digit prefix gives the value.  A parse yielding `NaN` or a negative
number makes the loop run zero iterations, so both are rendered as `0`. -/
def jsParseIntPages (raw : Option String) : Nat :=
  let s := (jsTrim (raw.getD "100")).data
  let digits (l : List Char) : Nat :=
    (l.takeWhile Char.isDigit).foldl (fun n c => n * 10 + (c.toNat - 48)) 0
  match s with
  | '-' :: _ => 0
  | '+' :: rest => if rest.takeWhile Char.isDigit = [] then 0 else digits rest
  | l => if l.takeWhile Char.isDigit = [] then 0 else digits l

/-- The configuration the server reads from its environment.  Only these
four variables are consulted anywhere in `src/server.js`. -/
structure Config where
  clientId  : Option String
  secret    : Option String
  maxPages  : Nat
  whitelist : List String
deriving Repr, DecidableEq

/-- Environment loading (src/server.js lines 19-29). -/
def parseConfig (env : List (String × String)) : Config :=
  { clientId  := envGet env "TWITCH_CLIENT_ID"
  , secret    := envGet env "TWITCH_SECRET"
  , maxPages  := jsParseIntPages (envGet env "TWITCH_MAX_PAGES")
  , whitelist := parseWhitelist (envGet env "WHITELIST_LOGINS") }

/-! ### The OSRP title pattern (src/server.js lines 32-40)

`OSRP_RE = /o\s*\.?\s*s\s*\.?\s*r\s*\.?\s*p|old\s*school\s*r\s*p|oldschool\s*r\s*p|osrp\w*/i`
and `OSRP_RE.test(title)` asks whether some position of the title starts a
match of one of the four alternatives.  The matcher below works on the
lowercased character list (the `i` flag); `\s` is modelled on the ASCII
whitespace characters.  Between two mandatory letters the sub-pattern
`\s*\.?\s*` is deterministic (whitespace and `.` are disjoint from the
letters), so the greedy scan below is equivalent to the regex's
backtracking search. -/

def skipSpaces (l : List Char) : List Char := l.dropWhile isSpaceChar

/-- Consume `\s*\.?\s*`. -/
def sepSkip (l : List Char) : List Char :=
  match skipSpaces l with
  | '.' :: rest => skipSpaces rest
  | l1 => l1

/-- Consume a literal character sequence. -/
def eatLit : List Char → List Char → Option (List Char)
  | [], l => some l
  | _, [] => none
  | p :: ps, c :: cs => if c = p then eatLit ps cs else none

/-- `o\s*\.?\s*s\s*\.?\s*r\s*\.?\s*p` matches at this position. -/
def branch1 (l : List Char) : Bool :=
  match l with
  | 'o' :: r1 =>
    match sepSkip r1 with
    | 's' :: r2 =>
      match sepSkip r2 with
      | 'r' :: r3 =>
        match sepSkip r3 with
        | 'p' :: _ => true
        | _ => false
      | _ => false
    | _ => false
  | _ => false

/-- `old\s*school\s*r\s*p` matches at this position. -/
def branch2 (l : List Char) : Bool :=
  match eatLit ['o','l','d'] l with
  | none => false
  | some r1 =>
    match eatLit ['s','c','h','o','o','l'] (skipSpaces r1) with
    | none => false
    | some r2 =>
      match skipSpaces r2 with
      | 'r' :: r3 =>
        match skipSpaces r3 with
        | 'p' :: _ => true
        | _ => false
      | _ => false

/-- `oldschool\s*r\s*p` matches at this position. -/
def branch3 (l : List Char) : Bool :=
  match eatLit ['o','l','d','s','c','h','o','o','l'] l with
  | none => false
  | some r1 =>
    match skipSpaces r1 with
    | 'r' :: r2 =>
      match skipSpaces r2 with
      | 'p' :: _ => true
      | _ => false
    | _ => false

/-- `osrp\w*` matches at this position; since `\w*` can match the empty
string this is exactly the literal `osrp` appearing here. -/
def branch4 (l : List Char) : Bool :=
  (eatLit ['o','s','r','p'] l).isSome

def matchAt (l : List Char) : Bool :=
  branch1 l || branch2 l || branch3 l || branch4 l

/-- All suffixes of a character list (the candidate match start points). -/
def suffixesOf : List Char → List (List Char)
  | [] => [[]]
  | c :: cs => (c :: cs) :: suffixesOf cs

/-- `OSRP_RE.test title`. -/
def osrpTest (title : String) : Bool :=
  (suffixesOf (jsToLower title).data).any matchAt

/-! ### Match policy and normalization (src/server.js lines 96-114) -/

/-- JavaScript template-literal interpolation of a possibly `undefined`
string: an absent value prints as the text `undefined`. -/
def jsInterp : Option String → String
  | none => "undefined"
  | some s => s

/-- `String.prototype.replace` with a plain-string pattern: replaces the
first occurrence only (an empty pattern matches at position 0). -/
def replFirst (pat repl : List Char) : List Char → List Char
  | [] => if pat.isEmpty then repl else []
  | c :: cs =>
    if (eatLit pat (c :: cs)).isSome then repl ++ (c :: cs).drop pat.length
    else c :: replFirst pat repl cs

def jsReplace (s pat repl : String) : String :=
  ⟨replFirst pat.toList repl.toList s.toList⟩

/-- The per-record inclusion test (src/server.js lines 97-103): lowercased
login on the whitelist, or title matches `OSRP_RE`.  Missing titles and
logins are read as `""` (`s.title || ""`, `s.user_login || ""`). -/
def matchPolicy (wl : List String) (s : StreamRecord) : Bool :=
  wl.contains (jsToLower (s.user_login.getD "")) || osrpTest (s.title.getD "")

/-- The object pushed for an included record (src/server.js lines 104-112).
Note the `url` interpolates `s.user_login` verbatim. -/
def normalize (s : StreamRecord) : MatchedStream :=
  { platform  := "twitch"
  , name      := s.user_name
  , title     := s.title
  , thumbnail := jsReplace (jsReplace (s.thumbnail_url.getD "") "\x7bwidth\x7d" "640")
      "\x7bheight\x7d" "360"
  , url       := "https://twitch.tv/" ++ jsInterp s.user_login
  , viewers   := s.viewer_count
  , language  := s.language }

/-- One record's contribution: `some` of the normalized stream when the
policy includes it, `none` otherwise. -/
def matchNormalize (wl : List String) (s : StreamRecord) : Option MatchedStream :=
  if matchPolicy wl s then some (normalize s) else none

/-- The matched, normalized streams of one page's items. -/
def pageMatches (wl : List String) (items : List StreamRecord) : List MatchedStream :=
  items.filterMap (matchNormalize wl)

/-! ### Token acquisition (src/server.js lines 55-65)

`getTwitchToken` holds no state whatsoever: it reads only the configured
credentials and the identity endpoint's response.  The embedding returns the
outcome together with the number of token requests issued by THIS call
(0 or 1).  A rejected `fetch` propagates (`Except.error`). -/

/-- The identity endpoint's behaviour for one request. -/
inductive TokenResp where
  /-- The fetch (or response-body read) rejected; the exception propagates. -/
  | reject : TokenResp
  /-- Non-success status: the code logs a warning and returns `null`. -/
  | err : TokenResp
  /-- Success; `tok` is `data.access_token` (possibly absent). -/
  | ok (tok : Option String) : TokenResp
deriving Repr, DecidableEq

def getTwitchToken (cfg : Config) (resp : TokenResp) :
    Except Unit (Option String) × Nat :=
  if ¬ truthyS cfg.clientId ∨ ¬ truthyS cfg.secret then (.ok none, 0)
  else
    match resp with
    | .reject => (.error (), 1)
    | .err => (.ok none, 1)
    | .ok tok => (.ok tok, 1)

/-! ### The paginated catalog scan (src/server.js lines 78-121) -/

/-- The listing endpoint's behaviour for one page request. -/
inductive PageResp where
  /-- The fetch (or `.json()`) rejected; the exception propagates. -/
  | reject : PageResp
  /-- Non-success status: warn and `break` out of the loop. -/
  | err : PageResp
  /-- Success: `data.data` (already coerced to a list by the
  `Array.isArray` guard) and `data?.pagination?.cursor`. -/
  | ok (items : List StreamRecord) (cursor : Option String) : PageResp
deriving Repr, DecidableEq

/-- `data?.pagination?.cursor || null`: an absent or empty cursor is
`null`. -/
def cursorNorm : Option String → Option String
  | some c => if c = "" then none else some c
  | none => none

/-- The page loop.  `responses n` is the reply to the n-th request of this
scan (requests are strictly sequential, each carrying the previous page's
cursor, so the conversation is indexed by request number).  On success the
result is the accumulated matches together with the number of page requests
issued; a rejected request aborts the whole scan (`Except.error k`, `k`
requests issued).  A non-success status `break`s, keeping the accumulated
matches. -/
def scanGo (wl : List String) (responses : Nat → PageResp) :
    Nat → List MatchedStream → Except Nat (List MatchedStream × Nat)
  | 0, acc => .ok (acc, 0)
  | budget + 1, acc =>
    match responses 0 with
    | .reject => .error 1
    | .err => .ok (acc, 1)
    | .ok items cur =>
      if cursorNorm cur = none ∨ items = [] then .ok (acc ++ pageMatches wl items, 1)
      else
        match scanGo wl (fun i => responses (i + 1)) budget (acc ++ pageMatches wl items) with
        | .error k => .error (k + 1)
        | .ok (res, k) => .ok (res, k + 1)

/-! ### Deduplication (src/server.js lines 124-128)

Insertion into a `Map` keyed by the lowercased URL, skipping falsy (empty)
keys and keys already present; `Array.from(uniq.values())` returns the kept
entries in first-insertion order. -/

def dedupGo (seen : List String) : List MatchedStream → List MatchedStream
  | [] => []
  | s :: rest =>
    let key := jsToLower s.url
    if key ≠ "" ∧ ¬ seen.contains key then s :: dedupGo (key :: seen) rest
    else dedupGo seen rest

def dedup (l : List MatchedStream) : List MatchedStream := dedupGo [] l

/-! ### Final ordering (src/server.js line 131)

`.sort((a, b) => (b.viewers || 0) - (a.viewers || 0))`.  ECMAScript's
`Array.prototype.sort` is stable and this comparator orders by the numeric
value `viewers || 0` descending; stability plus consistency with the
comparator determine the resulting permutation uniquely, and the stable
insertion sort below produces exactly that order. -/

/-- `s.viewers || 0`. -/
def viewers0 (s : MatchedStream) : Nat := s.viewers.getD 0

/-- Insert before the first element with viewer count `≤` ours, keeping
earlier-encountered entries ahead on ties. -/
def insertByViewers (s : MatchedStream) : List MatchedStream → List MatchedStream
  | [] => [s]
  | t :: ts =>
    if viewers0 t ≤ viewers0 s then s :: t :: ts
    else t :: insertByViewers s ts

def sortByViewersDesc (l : List MatchedStream) : List MatchedStream :=
  l.foldr insertByViewers []

/-! ### The whole primary pipeline (src/server.js lines 68-132) -/

/-- The upstream's behaviour over one invocation of the pipeline. -/
structure Oracle where
  token : TokenResp
  pages : Nat → PageResp

/-- `getTwitchStreams`, instrumented with the number of listing-page
requests issued: `.ok (resultSet, pageRequests)` on normal return,
`.error pageRequests` when an upstream rejection propagated. -/
def getTwitchStreamsI (cfg : Config) (o : Oracle) :
    Except Nat (List MatchedStream × Nat) :=
  match (getTwitchToken cfg o.token).1 with
  | .error _ => .error 0
  | .ok tok =>
    if ¬ truthyS tok then .ok ([], 0)
    else
      match scanGo cfg.whitelist o.pages cfg.maxPages [] with
      | .error k => .error k
      | .ok (res, k) => .ok (sortByViewersDesc (dedup res), k)

/-- `getTwitchStreams` proper: the value the promise settles to. -/
def getTwitchStreams (cfg : Config) (o : Oracle) : Except Unit (List MatchedStream) :=
  match getTwitchStreamsI cfg o with
  | .error _ => .error ()
  | .ok (res, _) => .ok res

/-- The TikTok placeholder (src/server.js lines 135-137): always fulfills
with the empty list. -/
def getTiktokStreams : Except Unit (List MatchedStream) := .ok []

/-- `Promise.allSettled` observation of one source: a fulfilled source
contributes its value, a rejected one the empty list
(src/server.js lines 142-146). -/
def settleValue : Except Unit (List MatchedStream) → List MatchedStream
  | .ok v => v
  | .error _ => []

/-- The `/streams` handler's response body (src/server.js lines 140-152):
both sources are awaited with `Promise.allSettled` and their fulfilled
values concatenated.  The handler returns a plain list — in the embedding
it cannot raise by type. -/
def streamsEndpoint (cfg : Config) (o : Oracle) : List MatchedStream :=
  settleValue (getTwitchStreams cfg o) ++ settleValue getTiktokStreams

/-! ## Helper lemmas about deduplication -/

/-- Every entry the reducer keeps has a nonempty key not previously seen,
and is the first entry of the input carrying its key. -/
theorem dedupGo_mem_spec (l : List MatchedStream) : ∀ (seen : List String)
    (s : MatchedStream), s ∈ dedupGo seen l →
    jsToLower s.url ≠ "" ∧ ¬ seen.contains (jsToLower s.url) ∧
    l.find? (fun t => jsToLower t.url == jsToLower s.url) = some s := by
  induction l with
  | nil => intro seen s h; simp [dedupGo] at h
  | cons x xs ih =>
    intro seen s h
    simp only [dedupGo] at h
    split at h
    · next hx =>
      rcases List.mem_cons.mp h with rfl | hmem
      · exact ⟨hx.1, hx.2, by simp [List.find?]⟩
      · obtain ⟨hne, hseen, hfind⟩ := ih _ _ hmem
        simp only [List.contains_cons, Bool.or_eq_true, beq_iff_eq] at hseen
        push_neg at hseen
        refine ⟨hne, by simpa using hseen.2, ?_⟩
        rw [List.find?_cons_of_neg _ (by simpa using fun hEq => hseen.1 hEq.symm)]
        exact hfind
    · next hx =>
      obtain ⟨hne, hseen, hfind⟩ := ih _ _ h
      have hxk : jsToLower x.url = "" ∨ (seen.contains (jsToLower x.url) : Prop) := by
        by_cases h1 : jsToLower x.url = ""
        · exact Or.inl h1
        · by_cases h2 : (seen.contains (jsToLower x.url) : Prop)
          · exact Or.inr h2
          · exact absurd ⟨h1, h2⟩ hx
      have hxs : jsToLower s.url ≠ jsToLower x.url := by
        intro hEq
        rcases hxk with h1 | h2
        · exact hne (hEq.trans h1)
        · exact hseen (hEq ▸ h2)
      refine ⟨hne, hseen, ?_⟩
      rw [List.find?_cons_of_neg _ (by simpa using fun hEq => hxs hEq.symm)]
      exact hfind

/-- The reducer's output never repeats a key (case-insensitively). -/
theorem dedupGo_pairwise (l : List MatchedStream) : ∀ seen : List String,
    (dedupGo seen l).Pairwise (fun a b => jsToLower a.url ≠ jsToLower b.url) := by
  induction l with
  | nil => intro seen; simp [dedupGo]
  | cons x xs ih =>
    intro seen
    simp only [dedupGo]
    split
    · next hx =>
      refine List.Pairwise.cons (fun b hb => ?_) (ih _)
      obtain ⟨-, hb2, -⟩ := dedupGo_mem_spec xs _ b hb
      intro hEq
      exact hb2 (by simp [List.contains_cons, hEq.symm])
    · exact ih _

/-- Every input entry with a nonempty key has a representative with its key
in the reducer's output. -/
theorem dedupGo_covers (l : List MatchedStream) : ∀ (seen : List String)
    (s : MatchedStream), s ∈ l → jsToLower s.url ≠ "" →
    ¬ seen.contains (jsToLower s.url) →
    ∃ t ∈ dedupGo seen l, jsToLower t.url = jsToLower s.url := by
  induction l with
  | nil => intro seen s h; simp at h
  | cons x xs ih =>
    intro seen s hs hne hseen
    simp only [dedupGo]
    split
    · next hx =>
      by_cases hkey : jsToLower x.url = jsToLower s.url
      · exact ⟨x, List.mem_cons_self x _, hkey⟩
      · rcases List.mem_cons.mp hs with rfl | hmem
        · exact absurd rfl hkey
        · obtain ⟨t, ht, hteq⟩ := ih (jsToLower x.url :: seen) s hmem hne
            (by simp [List.contains_cons]
                exact ⟨fun hEq => hkey hEq.symm, fun hc => hseen (by simpa using hc)⟩)
          exact ⟨t, List.mem_cons_of_mem _ ht, hteq⟩
    · next hx =>
      rcases List.mem_cons.mp hs with rfl | hmem
      · exact absurd ⟨hne, hseen⟩ hx
      · exact ih seen s hmem hne hseen

/-- The reducer's output is a sublist of its input: kept entries appear in
first-encounter order. -/
theorem dedupGo_sublist (l : List MatchedStream) : ∀ seen : List String,
    List.Sublist (dedupGo seen l) l := by
  induction l with
  | nil => intro seen; simp [dedupGo]
  | cons x xs ih =>
    intro seen
    simp only [dedupGo]
    split
    · exact List.Sublist.cons₂ x (ih _)
    · exact List.Sublist.cons x (ih _)

/-! ## Helper lemmas about the final ordering -/

theorem mem_insertByViewers {u s : MatchedStream} : ∀ {l : List MatchedStream},
    u ∈ insertByViewers s l → u = s ∨ u ∈ l := by
  intro l
  induction l with
  | nil => intro h; simpa [insertByViewers] using h
  | cons t ts ih =>
    intro h
    simp only [insertByViewers] at h
    split at h
    · rcases List.mem_cons.mp h with rfl | h2
      · exact Or.inl rfl
      · exact Or.inr h2
    · rcases List.mem_cons.mp h with rfl | h2
      · exact Or.inr (List.mem_cons_self _ _)
      · rcases ih h2 with rfl | h3
        · exact Or.inl rfl
        · exact Or.inr (List.mem_cons_of_mem _ h3)

theorem pairwise_insertByViewers (s : MatchedStream) :
    ∀ {l : List MatchedStream},
    l.Pairwise (fun a b => viewers0 b ≤ viewers0 a) →
    (insertByViewers s l).Pairwise (fun a b => viewers0 b ≤ viewers0 a) := by
  intro l
  induction l with
  | nil => intro _; simp [insertByViewers]
  | cons t ts ih =>
    intro h
    rw [List.pairwise_cons] at h
    simp only [insertByViewers]
    split
    · next hts =>
      refine List.pairwise_cons.mpr ⟨fun u hu => ?_, List.pairwise_cons.mpr h⟩
      rcases List.mem_cons.mp hu with rfl | hu2
      · exact hts
      · exact Nat.le_trans (h.1 u hu2) hts
    · next hts =>
      refine List.pairwise_cons.mpr ⟨fun u hu => ?_, ih h.2⟩
      rcases mem_insertByViewers hu with rfl | hu2
      · exact Nat.le_of_lt (Nat.lt_of_not_le hts)
      · exact h.1 u hu2

theorem sortByViewersDesc_pairwise (l : List MatchedStream) :
    (sortByViewersDesc l).Pairwise (fun a b => viewers0 b ≤ viewers0 a) := by
  induction l with
  | nil => simp [sortByViewersDesc]
  | cons x xs ih => exact pairwise_insertByViewers x ih

/-- Inserting touches only entries with a strictly larger count, so the
subsequence of entries at any fixed count is untouched. -/
theorem filter_insertByViewers (c : Nat) (s : MatchedStream) :
    ∀ l : List MatchedStream,
    (insertByViewers s l).filter (fun t => viewers0 t == c) =
      if viewers0 s == c then s :: l.filter (fun t => viewers0 t == c)
      else l.filter (fun t => viewers0 t == c) := by
  intro l
  induction l with
  | nil =>
    cases hb : (viewers0 s == c) <;> simp [insertByViewers, List.filter, hb]
  | cons t ts ih =>
    simp only [insertByViewers]
    split
    · next hts => cases hb : (viewers0 s == c) <;> simp [List.filter_cons, hb]
    · next hts =>
      have hlt : viewers0 s < viewers0 t := Nat.lt_of_not_le hts
      cases hb : (viewers0 s == c) with
      | false => simp [List.filter_cons, ih, hb]
      | true =>
        have htc : (viewers0 t == c) = false := by
          simp only [beq_eq_false_iff_ne, ne_eq]
          have := beq_iff_eq.mp hb
          omega
        simp [List.filter_cons, ih, hb, htc]

/-- Stability of the final ordering: the entries carrying any fixed viewer
count appear in the output exactly in their input order. -/
theorem filter_sortByViewersDesc (c : Nat) (l : List MatchedStream) :
    (sortByViewersDesc l).filter (fun t => viewers0 t == c) =
      l.filter (fun t => viewers0 t == c) := by
  induction l with
  | nil => simp [sortByViewersDesc]
  | cons x xs ih =>
    show (insertByViewers x (sortByViewersDesc xs)).filter _ = _
    rw [filter_insertByViewers, List.filter_cons]
    cases hb : (viewers0 x == c) <;> simp [hb, ih]

/-! ## Helper lemmas about the scan loop -/

/-- The matches a page response contributes: a failed page contributes
nothing. -/
def respMatches (wl : List String) : PageResp → List MatchedStream
  | .ok items _ => pageMatches wl items
  | _ => []

/-- The loop requests a further page after this response: success, a
nonempty item list, and a (truthy) continuation cursor. -/
def pageContinues : PageResp → Bool
  | .ok items cur => !(cursorNorm cur).isNone && !items.isEmpty
  | _ => false

theorem pageContinues_ok_false {items : List StreamRecord} {cur : Option String}
    (h : cursorNorm cur = none ∨ items = []) :
    pageContinues (.ok items cur) = false := by
  simp only [pageContinues]
  rcases h with h | h <;> simp [h]

theorem pageContinues_ok_true {items : List StreamRecord} {cur : Option String}
    (h : ¬ (cursorNorm cur = none ∨ items = [])) :
    pageContinues (.ok items cur) = true := by
  push_neg at h
  simp [pageContinues, Option.isSome_iff_ne_none.mpr h.1, h.2]

theorem range_succ_flatMap (f : Nat → List MatchedStream) (n : Nat) :
    (List.range (n + 1)).flatMap f = f 0 ++ (List.range n).flatMap (fun i => f (i + 1)) := by
  rw [List.range_succ_eq_map, List.flatMap_cons, List.flatMap_map]

/-- Full characterization of a normally-returning scan: the number `k` of
page requests never exceeds the budget, every page before the last
continued, the scan stopped early only at a non-continuing page, and the
result is everything the requested pages matched — the last page's failure
(or emptiness) never discards the earlier pages' matches. -/
theorem scanGo_ok_spec (wl : List String) :
    ∀ (budget : Nat) (responses : Nat → PageResp) (acc res : List MatchedStream)
      (k : Nat), scanGo wl responses budget acc = .ok (res, k) →
      k ≤ budget ∧
      (∀ i, i + 1 < k → pageContinues (responses i) = true) ∧
      (k < budget → ∃ j, k = j + 1 ∧ pageContinues (responses j) = false) ∧
      res = acc ++ (List.range k).flatMap (fun i => respMatches wl (responses i)) := by
  intro budget
  induction budget with
  | zero =>
    intro responses acc res k h
    simp only [scanGo] at h
    obtain ⟨rfl, rfl⟩ : acc = res ∧ 0 = k := by
      cases h; exact ⟨rfl, rfl⟩
    exact ⟨Nat.le_refl 0, by omega, by omega, by simp⟩
  | succ b ih =>
    intro responses acc res k h
    rw [scanGo] at h
    split at h
    · exact absurd h (by simp)
    · next heq =>
      obtain ⟨rfl, rfl⟩ : acc = res ∧ 1 = k := by cases h; exact ⟨rfl, rfl⟩
      refine ⟨by omega, by omega, fun _ => ⟨0, rfl, by simp [heq, pageContinues]⟩, ?_⟩
      simp [range_succ_flatMap, heq, respMatches]
    · next items cur heq =>
      split at h
      · next hstop =>
        obtain ⟨rfl, rfl⟩ : acc ++ pageMatches wl items = res ∧ 1 = k := by
          cases h; exact ⟨rfl, rfl⟩
        refine ⟨by omega, by omega,
          fun _ => ⟨0, rfl, by rw [heq]; exact pageContinues_ok_false hstop⟩, ?_⟩
        simp [range_succ_flatMap, heq, respMatches]
      · next hgo =>
        split at h
        · exact absurd h (by simp)
        · next res0 k0 heq2 =>
          obtain ⟨rfl, rfl⟩ : res0 = res ∧ k0 + 1 = k := by cases h; exact ⟨rfl, rfl⟩
          obtain ⟨hk, hcont, hstop, hres⟩ := ih _ _ _ _ heq2
          refine ⟨by omega, ?_, ?_, ?_⟩
          · intro i hi
            match i with
            | 0 => rw [heq]; exact pageContinues_ok_true hgo
            | i' + 1 => exact hcont i' (by omega)
          · intro hlt
            obtain ⟨j, hj, hjf⟩ := hstop (by omega)
            exact ⟨j + 1, by omega, hjf⟩
          · rw [hres, range_succ_flatMap]
            simp [heq, respMatches, pageMatches]

/-! ## Concrete inputs used by counterexamples and witnesses -/

/-- A deployment with both credentials configured and an empty whitelist. -/
def cfgFull : Config :=
  { clientId := some "id", secret := some "secret", maxPages := 5, whitelist := [] }

/-- Missing application identifier. -/
def cfgNoId : Config :=
  { clientId := none, secret := some "secret", maxPages := 5, whitelist := [] }

/-- A record whose login contains uppercase letters and whose title matches
the pattern. -/
def recUpperLogin : StreamRecord :=
  { user_login := some "StreamerFOO", title := some "OSRP night",
    viewer_count := some 7 }

/-- A matching record with no login field. -/
def recMissingLogin : StreamRecord :=
  { title := some "osrp takeover", viewer_count := some 2 }

/-- A record with every field absent. -/
def recEmpty : StreamRecord := {}

/-- A whitelisted login, an unrelated title, and a category identifier
outside any would-be category allow-list. -/
def recWhitelistedUnrelated : StreamRecord :=
  { user_login := some "vip", title := some "Just Chatting",
    viewer_count := some 3, game_id := some "99999" }

/-- An upstream conversation whose second listing page rejects: the scan
throws mid-scan. -/
def oMidScanThrow : Oracle :=
  ⟨.ok (some "tok"), fun i => match i with
    | 0 => .ok [recUpperLogin] (some "cur")
    | _ => .reject⟩

/-- An upstream conversation of two successful pages, the second carrying no
continuation cursor. -/
def oTwoPages : Oracle :=
  ⟨.ok (some "tok"), fun i => match i with
    | 0 => .ok [recUpperLogin] (some "c0")
    | 1 => .ok [recMissingLogin] none
    | _ => .err⟩

/-- The result of the `oTwoPages` run. -/
def resTwoPages : List MatchedStream :=
  sortByViewersDesc (dedup [normalize recUpperLogin, normalize recMissingLogin])

/-- A single successful page and nothing after it. -/
def oOnePage : Oracle :=
  ⟨.ok (some "tok"), fun i => match i with
    | 0 => .ok [recUpperLogin] none
    | _ => .err⟩

/-- An upstream conversation in which the third page request fails with a
non-success status. -/
def pagesErrThird : Nat → PageResp := fun i => match i with
  | 0 => .ok [recUpperLogin] (some "c0")
  | 1 => .ok [recMissingLogin] (some "c1")
  | _ => .err

/-- An environment that carries a category allow-list variable alongside
the recognized ones. -/
def envWithCategory : List (String × String) :=
  [("TWITCH_CLIENT_ID", "id"), ("TWITCH_SECRET", "sec"),
   ("WHITELIST_LOGINS", "vip"), ("TWITCH_CATEGORY_IDS", "12345")]

/-- Matched streams whose canonical URLs collide case-insensitively. -/
def mAlpha : MatchedStream :=
  { platform := "twitch", name := some "Alpha", title := some "osrp a",
    thumbnail := "", url := "https://twitch.tv/Alpha", viewers := some 5,
    language := none }

def mAlphaDup : MatchedStream :=
  { platform := "twitch", name := some "alpha", title := some "osrp again",
    thumbnail := "", url := "https://twitch.tv/alpha", viewers := some 4,
    language := none }

def mBeta : MatchedStream :=
  { platform := "twitch", name := some "Beta", title := some "osrp b",
    thumbnail := "", url := "https://twitch.tv/beta", viewers := some 9,
    language := none }

/-! ## The claims -/

/-- C1: for every outcome of the two source pipelines — including the
primary pipeline throwing mid-scan — the `/streams` aggregation
(`Promise.allSettled` in src/server.js lines 140-152) returns a
well-formed list without raising: by type `streamsEndpoint` always yields a
plain list; a fulfilled source contributes its value, a rejected source the
empty list, and the TikTok stub always fulfills with the empty list, so the
caller receives at worst an empty or partial list. -/
theorem aggregate_never_raises (cfg : Config) (o : Oracle) :
    (∀ v, getTwitchStreams cfg o = .ok v → streamsEndpoint cfg o = v) ∧
    (∀ e, getTwitchStreams cfg o = .error e → streamsEndpoint cfg o = []) ∧
    getTiktokStreams = .ok [] := by
  refine ⟨?_, ?_, rfl⟩ <;> intro x hx <;>
    simp [streamsEndpoint, hx, settleValue, getTiktokStreams]

/-- C1 witness: a concrete run whose second page request rejects — the
Twitch pipeline throws mid-scan, and the aggregate still returns (the stub
source's empty contribution). -/
theorem aggregate_never_raises_witness :
    getTwitchStreams cfgFull oMidScanThrow = .error () ∧
    streamsEndpoint cfgFull oMidScanThrow = [] :=
  ⟨rfl, (aggregate_never_raises cfgFull oMidScanThrow).2.1 () rfl⟩

/-- C2: the reducer (src/server.js lines 124-128) never returns two entries
whose canonical URLs agree case-insensitively; an entry it returns is the
first entry of its input carrying that canonical URL (first-seen-wins); and
every input entry with a nonempty canonical URL — all streams built by the
pipeline have one — is represented in the output. -/
theorem dedup_unique_first_seen (l : List MatchedStream) :
    (dedup l).Pairwise (fun a b => jsToLower a.url ≠ jsToLower b.url) ∧
    (∀ s ∈ dedup l,
      l.find? (fun t => jsToLower t.url == jsToLower s.url) = some s) ∧
    (∀ s ∈ l, jsToLower s.url ≠ "" →
      ∃ t ∈ dedup l, jsToLower t.url = jsToLower s.url) := by
  refine ⟨dedupGo_pairwise l [], ?_, ?_⟩
  · intro s hs
    exact (dedupGo_mem_spec l [] s hs).2.2
  · intro s hs hne
    exact dedupGo_covers l [] s hs hne (by simp)

/-- C2 witness: with two entries differing only in URL case, the kept entry
is the first seen, and the duplicate key is still represented. -/
theorem dedup_unique_first_seen_witness :
    [mAlpha, mAlphaDup, mBeta].find?
      (fun t => jsToLower t.url == jsToLower mAlpha.url) = some mAlpha ∧
    ∃ t ∈ dedup [mAlpha, mAlphaDup, mBeta],
      jsToLower t.url = jsToLower mAlphaDup.url :=
  ⟨(dedup_unique_first_seen [mAlpha, mAlphaDup, mBeta]).2.1 mAlpha (by decide),
   (dedup_unique_first_seen [mAlpha, mAlphaDup, mBeta]).2.2 mAlphaDup
     (by decide) (by decide)⟩

/-- C3: on any run of the primary pipeline that returns normally and whose
entries all carry a viewer count, the ResultSet of `getTwitchStreams` is
sorted non-increasing by viewer count; moreover the ResultSet is the stable
descending sort of the deduplicated scan output — a sublist of the scan
output, hence in first-encounter order — and for each fixed count the
entries at that count keep exactly that first-encounter order. -/
theorem getTwitchStreams_sorted (cfg : Config) (o : Oracle)
    (r res : List MatchedStream) (k : Nat)
    (hscan : scanGo cfg.whitelist o.pages cfg.maxPages [] = .ok (r, k))
    (hok : getTwitchStreams cfg o = .ok res)
    (hv : ∀ s ∈ res, s.viewers.isSome) :
    res.Pairwise
      (fun a b => ∃ x y, a.viewers = some x ∧ b.viewers = some y ∧ y ≤ x) ∧
    (res = [] ∨
      (res = sortByViewersDesc (dedup r) ∧ List.Sublist (dedup r) r ∧
       ∀ c, res.filter (fun s => viewers0 s == c) =
         (dedup r).filter (fun s => viewers0 s == c))) := by
  have hI : getTwitchStreamsI cfg o = .error 0 ∨
      getTwitchStreamsI cfg o = .ok ([], 0) ∨
      getTwitchStreamsI cfg o = .ok (sortByViewersDesc (dedup r), k) := by
    unfold getTwitchStreamsI
    generalize (getTwitchToken cfg o.token).1 = t
    cases t with
    | error e => exact Or.inl rfl
    | ok tok =>
      by_cases ht : truthyS tok
      · refine Or.inr (Or.inr ?_)
        simp [ht, hscan]
      · refine Or.inr (Or.inl ?_)
        simp [ht]
  have hshape : res = [] ∨ res = sortByViewersDesc (dedup r) := by
    unfold getTwitchStreams at hok
    rcases hI with h | h | h <;> rw [h] at hok
    · exact absurd hok (by simp)
    · simp only [Except.ok.injEq] at hok
      exact Or.inl hok.symm
    · simp only [Except.ok.injEq] at hok
      exact Or.inr hok.symm
  rcases hshape with rfl | rfl
  · exact ⟨List.Pairwise.nil, Or.inl rfl⟩
  · refine ⟨?_, Or.inr ⟨rfl, dedupGo_sublist r [],
      fun c => filter_sortByViewersDesc c (dedup r)⟩⟩
    refine (sortByViewersDesc_pairwise (dedup r)).imp_of_mem ?_
    intro a b ha hb hle
    obtain ⟨x, hx⟩ := Option.isSome_iff_exists.mp (hv a ha)
    obtain ⟨y, hy⟩ := Option.isSome_iff_exists.mp (hv b hb)
    exact ⟨x, y, hx, hy, by simpa [viewers0, hx, hy] using hle⟩

/-- C3 witness: a concrete two-page run (viewer counts 7 then 2, all
present) whose ResultSet is sorted non-increasing by count. -/
theorem getTwitchStreams_sorted_witness :
    resTwoPages.Pairwise
      (fun a b => ∃ x y, a.viewers = some x ∧ b.viewers = some y ∧ y ≤ x) :=
  (getTwitchStreams_sorted cfgFull oTwoPages
    [normalize recUpperLogin, normalize recMissingLogin] resTwoPages 2
    rfl rfl (by decide)).1

/-- C4 counterexample: the claim requires that, after a successful exchange,
a further `acquire()` within the token's lifetime issues no network request.
`getTwitchToken` (src/server.js lines 55-65) keeps no cached credential, no
stored expiry and no 60-second margin — the response's `expires_in` field is
never even read — so it is a pure function of the configuration and the
endpoint's response: a repeat call is the very same expression.  Here the
exchange succeeds, and the call (hence also any immediately repeated call)
issues one request where the claim requires zero. -/
theorem token_cache_counterexample :
    (getTwitchToken cfgFull (.ok (some "tok"))).1 = .ok (some "tok") ∧
    (getTwitchToken cfgFull (.ok (some "tok"))).2 = 1 :=
  ⟨rfl, rfl⟩

/-- C4 amended: `getTwitchToken` keeps no cache: whenever both credentials
are configured, every call performs exactly one client-credentials
exchange, and a successful exchange returns the response's access token. -/
theorem token_no_cache_amended (cfg : Config) (resp : TokenResp)
    (h1 : truthyS cfg.clientId = true) (h2 : truthyS cfg.secret = true) :
    (getTwitchToken cfg resp).2 = 1 ∧
    ∀ tok, resp = .ok tok → (getTwitchToken cfg resp).1 = .ok tok := by
  have hcond : ¬ (¬ truthyS cfg.clientId ∨ ¬ truthyS cfg.secret) := by
    simp [h1, h2]
  constructor
  · unfold getTwitchToken
    rw [if_neg hcond]
    cases resp <;> rfl
  · rintro tok rfl
    unfold getTwitchToken
    rw [if_neg hcond]

/-- C4 amended witness: a failed exchange still counts as one request. -/
theorem token_no_cache_amended_witness :
    (getTwitchToken cfgFull TokenResp.err).2 = 1 :=
  (token_no_cache_amended cfgFull .err (by decide) (by decide)).1

/-- C5 counterexample: a category allow-list (`12345`) is present in the
environment, and the record's category identifier (`99999`) is not in it,
so the claim requires the record NOT to be included; the code reads no
category configuration at all and includes it via the login whitelist. -/
theorem category_gate_counterexample :
    matchPolicy (parseConfig envWithCategory).whitelist
      recWhitelistedUnrelated = true := by
  decide

/-- C5 amended: the code has no category gate.  The configuration is built
from the four recognized environment variables only — any other binding,
category lists included, leaves it unchanged — the match policy never reads
the record's category identifier, and inclusion is exactly
whitelisted-login-or-title-match, whatever the category. -/
theorem no_category_gate_amended :
    (∀ (env : List (String × String)) (k v : String),
      k ≠ "TWITCH_CLIENT_ID" → k ≠ "TWITCH_SECRET" → k ≠ "TWITCH_MAX_PAGES" →
      k ≠ "WHITELIST_LOGINS" → parseConfig ((k, v) :: env) = parseConfig env) ∧
    (∀ (wl : List String) (s : StreamRecord) (g : Option String),
      matchPolicy wl { s with game_id := g } = matchPolicy wl s) ∧
    (∀ (wl : List String) (s : StreamRecord),
      matchPolicy wl s =
        (wl.contains (jsToLower (s.user_login.getD "")) ||
          osrpTest (s.title.getD ""))) := by
  refine ⟨?_, fun wl s g => rfl, fun wl s => rfl⟩
  intro env k v h1 h2 h3 h4
  have he : ∀ key : String, k ≠ key →
      envGet ((k, v) :: env) key = envGet env key := by
    intro key hk
    unfold envGet
    rw [List.find?_cons_of_neg _ (by simpa using hk)]
  simp [parseConfig, he _ h1, he _ h2, he _ h3, he _ h4]

/-- C5 amended witness: adding a category variable to the environment does
not change the parsed configuration. -/
theorem no_category_gate_amended_witness :
    parseConfig (("TWITCH_CATEGORY_IDS", "777") :: envWithCategory) =
      parseConfig envWithCategory :=
  no_category_gate_amended.1 envWithCategory "TWITCH_CATEGORY_IDS" "777"
    (by decide) (by decide) (by decide) (by decide)

/-- C6: with the application identifier or the secret unconfigured,
`getTwitchToken` returns `null` (Unavailable) immediately, issuing zero
token requests; the scanner returns the empty ResultSet issuing zero
listing requests; and the `/streams` aggregate returns the empty list —
by type, without throwing. -/
theorem unconfigured_returns_empty (cfg : Config) (o : Oracle)
    (h : ¬ truthyS cfg.clientId ∨ ¬ truthyS cfg.secret) :
    getTwitchToken cfg o.token = (.ok none, 0) ∧
    getTwitchStreamsI cfg o = .ok ([], 0) ∧
    streamsEndpoint cfg o = [] := by
  have h1 : getTwitchToken cfg o.token = (.ok none, 0) := by
    unfold getTwitchToken
    rw [if_pos h]
  have h2 : getTwitchStreamsI cfg o = .ok ([], 0) := by
    unfold getTwitchStreamsI
    rw [h1]
    simp [truthyS]
  have h3 : getTwitchStreams cfg o = .ok [] := by
    unfold getTwitchStreams
    rw [h2]
  exact ⟨h1, h2, by simp [streamsEndpoint, h3, settleValue, getTiktokStreams]⟩

/-- C6 witness: with no application identifier configured, the aggregate
returns the empty list and the scanner issued zero listing requests. -/
theorem unconfigured_returns_empty_witness :
    getTwitchStreamsI cfgNoId oMidScanThrow = .ok ([], 0) ∧
    streamsEndpoint cfgNoId oMidScanThrow = [] :=
  ⟨(unconfigured_returns_empty cfgNoId oMidScanThrow (Or.inl (by decide))).2.1,
   (unconfigured_returns_empty cfgNoId oMidScanThrow (Or.inl (by decide))).2.2⟩

/-- C7: a normally-returning scan (src/server.js lines 81-121) makes `k`
sequential page requests, one per page index — never retrying any — and
terminates exactly when the budget is exhausted or at the first
non-continuing page (non-success status, zero items, or no continuation
cursor): every earlier page continued, and if the scan stopped under
budget the last requested page did not continue.  The result is the
concatenation of the matches of all requested pages — a final failed page
contributes nothing, but the earlier pages' matches are returned, never
discarded.  (A page request that throws instead of returning a status is
the rejection path settled under C1.) -/
theorem scan_termination (wl : List String) (responses : Nat → PageResp)
    (budget k : Nat) (res : List MatchedStream)
    (h : scanGo wl responses budget [] = .ok (res, k)) :
    k ≤ budget ∧
    (∀ i, i + 1 < k → pageContinues (responses i) = true) ∧
    (k < budget → ∃ j, k = j + 1 ∧ pageContinues (responses j) = false) ∧
    res = (List.range k).flatMap (fun i => respMatches wl (responses i)) := by
  simpa using scanGo_ok_spec wl budget responses [] res k h

/-- C7 witness: with the third page failing, the scan stops after exactly
three requests and returns the two earlier pages' matches. -/
theorem scan_termination_witness :
    [normalize recUpperLogin, normalize recMissingLogin] =
      (List.range 3).flatMap (fun i => respMatches [] (pagesErrThird i)) :=
  (scan_termination [] pagesErrThird 5 3
    [normalize recUpperLogin, normalize recMissingLogin] rfl).2.2.2

/-- C8: with no category allow-list (the code never applies one), a record
is included exactly when its title matches the pattern or its lowercased
login is on the whitelist; "Come join our OSRP session!" and "O.S.R.P
night" match the pattern, and a whitelisted login with the unrelated title
"Just Chatting" — which does not match the pattern — is still included. -/
theorem match_policy_spec :
    (∀ (wl : List String) (s : StreamRecord),
      matchPolicy wl s =
        (osrpTest (s.title.getD "") ||
          wl.contains (jsToLower (s.user_login.getD "")))) ∧
    osrpTest "Come join our OSRP session!" = true ∧
    osrpTest "O.S.R.P night" = true ∧
    osrpTest "Just Chatting" = false ∧
    matchPolicy ["vip"] recWhitelistedUnrelated = true := by
  refine ⟨fun wl s => Bool.or_comm _ _, by decide, by decide, by decide, by decide⟩

/-- C9 counterexample: the claim says the stored canonical URL is itself
lowercase-normalized.  A matching record whose login contains uppercase
letters flows to the ResultSet with the login verbatim in its URL, which
differs from its lowercase normalization — the code lowercases only the
dedup key (src/server.js line 126), not the stored URL (line 109). -/
theorem canonical_url_counterexample :
    getTwitchStreams cfgFull oOnePage =
      .ok [{ platform := "twitch", name := none, title := some "OSRP night",
             thumbnail := "", url := "https://twitch.tv/StreamerFOO",
             viewers := some 7, language := none }] ∧
    jsToLower "https://twitch.tv/StreamerFOO" ≠ "https://twitch.tv/StreamerFOO" :=
  ⟨rfl, by decide⟩

/-- C9 amended: the canonical URL is `https://twitch.tv/` followed by the
record's login verbatim (an absent login interpolating as `undefined`);
lowercasing happens only on the dedup key, so the output still never holds
two entries whose URLs agree case-insensitively, but a stored URL is
lowercase only when the login is. -/
theorem canonical_url_amended :
    (∀ s : StreamRecord,
      (normalize s).url = "https://twitch.tv/" ++ jsInterp s.user_login) ∧
    (∀ l : List MatchedStream,
      (dedup l).Pairwise (fun a b => jsToLower a.url ≠ jsToLower b.url)) :=
  ⟨fun _ => rfl, fun l => dedupGo_pairwise l []⟩

/-- C10 counterexample: the claim says the normalization step treats a
missing login as the empty string.  For a record with no login that matches
by title, the stored URL is `https://twitch.tv/undefined` — JavaScript
template-literal interpolation of `undefined` — not the
`https://twitch.tv/` the empty string would give. -/
theorem missing_login_counterexample :
    matchNormalize [] recMissingLogin =
      some { platform := "twitch", name := none, title := some "osrp takeover",
             thumbnail := "", url := "https://twitch.tv/undefined",
             viewers := some 2, language := none } ∧
    ("https://twitch.tv/undefined" : String) ≠ "https://twitch.tv/" ++ "" :=
  ⟨rfl, by decide⟩

/-- C10 amended: the matching/normalization step is total — it yields
`some` normalized entry exactly when the policy includes the record, for
every record, missing fields included.  A missing title is read as the
empty string, which never matches the pattern, so only the whitelist branch
can include the record; a missing login is read as the empty string for the
whitelist lookup but interpolates as the text `undefined` in the stored
URL; a missing thumbnail template is read as the empty string. -/
theorem missing_fields_amended (wl : List String) (s : StreamRecord) :
    ((matchNormalize wl s).isSome = matchPolicy wl s) ∧
    (s.title = none →
      matchPolicy wl s = wl.contains (jsToLower (s.user_login.getD ""))) ∧
    (s.user_login = none → (normalize s).url = "https://twitch.tv/undefined") ∧
    (s.thumbnail_url = none → (normalize s).thumbnail = "") := by
  refine ⟨?_, ?_, ?_, ?_⟩
  · unfold matchNormalize
    split <;> simp_all
  · intro h
    have h0 : osrpTest "" = false := by decide
    simp [matchPolicy, h, h0]
  · intro h
    simp only [normalize, h]
    rfl
  · intro h
    simp only [normalize, h]
    rfl

/-- C10 amended witness: the fully-absent record is matched against an
arbitrary whitelist via the empty-string login and normalizes to the
`undefined` URL and empty thumbnail. -/
theorem missing_fields_amended_witness :
    (normalize recEmpty).url = "https://twitch.tv/undefined" ∧
    (normalize recEmpty).thumbnail = "" ∧
    matchPolicy ["x"] recEmpty =
      (["x"] : List String).contains (jsToLower (recEmpty.user_login.getD "")) :=
  ⟨(missing_fields_amended [] recEmpty).2.2.1 rfl,
   (missing_fields_amended [] recEmpty).2.2.2 rfl,
   (missing_fields_amended ["x"] recEmpty).2.1 rfl⟩

end OSRP
